import Mathlib

/-!
Verification of the glean-collections-sync repository.

The definitions below are a shallow embedding of the TypeScript sources
`src/collections-manager.ts` and `src/main.ts`.  Remote HTTP responses are
modelled by a `World` record that supplies the data each endpoint would
return; `syncCollection` then becomes a pure function from a `World` to its
result value together with the ordered trace of API calls it issues.
-/

namespace GleanSync

/-- JS `s.split(sep)` for a single-character separator, on the character
list of the string.  `split` of the empty string yields `[[]]`, matching
JavaScript's `"".split(c) = [""]`. -/
def splitChar (sep : Char) : List Char → List (List Char)
  | [] => [[]]
  | c :: rest =>
    let r := splitChar sep rest
    if c = sep then [] :: r
    else
      match r with
      | [] => [[c]]
      | g :: gs => (c :: g) :: gs

/-- `jsSplit sep s` models JavaScript `s.split(sep)` for a one-character
separator string. -/
def jsSplit (sep : Char) (s : String) : List String :=
  (splitChar sep s.toList).map (fun cs => String.mk cs)

/-- Strict lexicographic comparison of character lists by code unit, the
order JavaScript's default `Array.prototype.sort` uses on strings. -/
def charListLt : List Char → List Char → Bool
  | [], [] => false
  | [], _ :: _ => true
  | _ :: _, [] => false
  | a :: as, b :: bs =>
    if a < b then true else if b < a then false else charListLt as bs

/-- `strLe a b` : `a` sorts no later than `b` under the JS default sort. -/
def strLe (a b : String) : Bool := !(charListLt b.toList a.toList)

/-- Insert a string into a (sorted) list, keeping the JS sort order. -/
def insertSorted (x : String) : List String → List String
  | [] => [x]
  | y :: ys => if strLe x y then x :: y :: ys else y :: insertSorted x ys

/-- `xs.sort()` on an array of strings: ascending lexicographic order. -/
def sortStrings (l : List String) : List String := l.foldr insertSorted []

/-! ## Data model (`src/types.ts`) -/

/-- One parsed filter clause, `{ value, relationType }`.  `value` is
`none` when the token had no `:` (JavaScript `undefined`). -/
structure Filter where
  value : Option String
  relationType : String
  deriving Repr, DecidableEq

/-- `FilterDict`: a JS object mapping field names to lists of filters.
Modelled as an association list preserving JS string-key insertion
order. -/
abbrev FilterDict := List (String × List Filter)

/-- `CollectionResponse` from `src/types.ts`. -/
structure CollectionResponse where
  errorCode : Option String := none
  id : Option Nat := none
  deriving Repr, DecidableEq

/-- `Collection` from `src/types.ts`. -/
structure Collection where
  id : Nat
  name : String
  deriving Repr, DecidableEq

/-- The `document` field of a raw search / listing result item. -/
structure Doc where
  id : String
  title : String
  url : String
  deriving Repr, DecidableEq

/-- A raw item of a search response or collection listing:
`{ document, itemType? }`.  `itemType = some ""` models a present but
falsy (empty) string. -/
structure SearchItem where
  document : Doc
  itemType : Option String := none
  deriving Repr, DecidableEq

/-- The normalized document descriptor built by `getDocumentDetails`. -/
structure DocumentDetail where
  documentId : String
  name : String
  title : String
  url : String
  itemType : String
  deriving Repr, DecidableEq

/-- JavaScript `item.itemType || 'DOCUMENT'`: falsy (absent or empty)
falls back to `"DOCUMENT"`. -/
def itemTypeOrDefault : Option String → String
  | none => "DOCUMENT"
  | some s => if s = "" then "DOCUMENT" else s

/-- `getDocumentDetails` from `collections-manager.ts`. -/
def getDocumentDetails (items : List SearchItem) : List DocumentDetail :=
  items.map fun item =>
    { documentId := item.document.id
      name := item.document.title
      title := item.document.title
      url := item.document.url
      itemType := itemTypeOrDefault item.itemType }

/-! ## Filter parsing (`parseFilters`) -/

/-- `const [key, value] = part.split(':')`: the key is the text before
the first colon; the value the text between the first and second colons,
or `undefined` (`none`) when there is no colon; later segments are
dropped by the destructuring. -/
def keyValOf (part : String) : String × Option String :=
  match jsSplit ':' part with
  | [] => ("", none)
  | [k] => (k, none)
  | k :: v :: _ => (k, some v)

/-- The filter object pushed for one token. -/
def mkFilter (part : String) : Filter :=
  { value := (keyValOf part).2, relationType := "EQUALS" }

/-- `filterDict[key].push(f)` / `filterDict[key] = [f]`: append to the
key's list if the key is present, otherwise add the key at the end
(JS object insertion order). -/
def insertFilter : FilterDict → String → Filter → FilterDict
  | [], key, f => [(key, [f])]
  | (k, fs) :: rest, key, f =>
    if k = key then (k, fs ++ [f]) :: rest
    else (k, fs) :: insertFilter rest key f

/-- One iteration of the `for (const part of filters.split(' '))` loop. -/
def addFilterToken (d : FilterDict) (part : String) : FilterDict :=
  insertFilter d (keyValOf part).1 (mkFilter part)

/-- `parseFilters` from `collections-manager.ts`.  The `if (filters)`
guard means the empty string yields an empty dictionary. -/
def parseFilters (filters : String) : FilterDict :=
  if filters = "" then []
  else (jsSplit ' ' filters).foldl addFilterToken []

/-! ## The world: responses the remote API supplies -/

/-- All remote data one `syncCollection` run can observe: the search
response's `results`, the response of `createcollection`, the list from
`listcollections`, and the `items` of `getcollection` per collection
id. -/
structure World where
  searchResults : List SearchItem
  creationResponse : CollectionResponse
  collections : List Collection
  collectionItems : Nat → List SearchItem

/-- One HTTP call issued by the manager, in order. -/
inductive ApiCall where
  | search
  | createcollection (name : String)
  | listcollections
  | getcollection (id : Nat)
  | addcollectionitems (collectionId : Nat) (item : DocumentDetail)
  | deletecollectionitem (collectionId : Nat) (itemId : Option String)
      (documentId : String)
  deriving Repr, DecidableEq

/-- The value `syncCollection` resolves to: an `{ error }` object, the
"updated existing collection" object (which carries both
`added_documents` and `removed_documents`), or the "created new
collection" object (which carries no removed-documents key at all). -/
inductive SyncResult where
  | error (message : String)
  | updated (collectionId : Nat) (collectionName : String)
      (addedDocuments removedDocuments : List String)
  | created (collectionId : Nat) (collectionName : String)
      (addedDocuments : List String)
  deriving Repr, DecidableEq

/-- `findCollection`: first collection whose name matches exactly, else
`null`. -/
def findCollection (collections : List Collection) (collectionName : String) :
    Option Collection :=
  collections.find? (fun c => c.name = collectionName)

/-- `searchDocumentIds` derived from the world's search response
(`responseJson.results || []`). -/
def searchIds (w : World) : List String :=
  (getDocumentDetails w.searchResults).map (·.documentId)

/-- The existing collection's document ids as computed from
`getCollectionItems(...).items || []`. -/
def existingIds (w : World) (collectionId : Nat) : List String :=
  (getDocumentDetails (w.collectionItems collectionId)).map (·.documentId)

/-- `s.filter((id) => !e.includes(id))`: the id-set difference as the
code computes it (a list, order of `s`, duplicates kept). -/
def diffIds (s e : List String) : List String :=
  s.filter (fun id => !(e.contains id))

/-- `syncCollection` from `collections-manager.ts`, as a pure function of
the world: returns the resolved value and the ordered trace of API
calls. -/
def syncCollection (w : World) (collectionName : String) :
    SyncResult × List ApiCall :=
  let documentDetails := getDocumentDetails w.searchResults
  let searchDocumentIds := documentDetails.map (·.documentId)
  let collectionResponse := w.creationResponse
  let trace0 := [ApiCall.search, ApiCall.createcollection collectionName]
  if collectionResponse.errorCode = some "NAME_EXISTS" then
    match findCollection w.collections collectionName with
    | none =>
      (.error ("Collection '" ++ collectionName ++ "' not found."),
        trace0 ++ [ApiCall.listcollections])
    | some existingCollection =>
      let collectionId := existingCollection.id
      let existingDocumentIds :=
        (getDocumentDetails (w.collectionItems collectionId)).map
          (·.documentId)
      let newDocumentIds := diffIds searchDocumentIds existingDocumentIds
      let oldDocumentIds := diffIds existingDocumentIds searchDocumentIds
      let addCalls :=
        if newDocumentIds.length ≠ 0 then
          (documentDetails.filter
              (fun doc => newDocumentIds.contains doc.documentId)).map
            (fun doc => ApiCall.addcollectionitems collectionId doc)
        else []
      let removeCalls :=
        if oldDocumentIds.length ≠ 0 then
          oldDocumentIds.map
            (fun docId =>
              ApiCall.deletecollectionitem collectionId none docId)
        else []
      (.updated collectionId collectionName (sortStrings newDocumentIds)
          (sortStrings oldDocumentIds),
        trace0 ++ [ApiCall.listcollections, ApiCall.getcollection collectionId]
          ++ addCalls ++ removeCalls)
  else
    match w.creationResponse.id with
    | some collectionId =>
      if collectionId ≠ 0 then
        (.created collectionId collectionName searchDocumentIds,
          trace0 ++ documentDetails.map
            (fun doc => ApiCall.addcollectionitems collectionId doc))
      else (.error "Error creating collection", trace0)
    | none => (.error "Error creating collection", trace0)

/-! ## Observation functions on results and traces -/

/-- The added document ids carried by a result value
(`added_documents`, or nothing for an error). -/
def addedOf : SyncResult → List String
  | .error _ => []
  | .updated _ _ a _ => a
  | .created _ _ a => a

/-- The removed document ids carried by a result value: only the
`updated` object has a `removed_documents` key. -/
def removedOf : SyncResult → List String
  | .error _ => []
  | .updated _ _ _ r => r
  | .created _ _ _ => []

/-- Whether a call posts to `addcollectionitems`. -/
def isAddCall : ApiCall → Bool
  | .addcollectionitems _ _ => true
  | _ => false

/-- Whether a call posts to `deletecollectionitem`. -/
def isRemoveCall : ApiCall → Bool
  | .deletecollectionitem _ _ _ => true
  | _ => false

/-- No `addcollectionitems` call occurs in the trace. -/
def noAddCalls (l : List ApiCall) : Bool :=
  l.all (fun c => !(isAddCall c))

/-- Every `addcollectionitems` call precedes every
`deletecollectionitem` call: once a remove occurs, no add follows. -/
def addsBeforeRemoves : List ApiCall → Bool
  | [] => true
  | c :: rest =>
    if isRemoveCall c then noAddCalls rest else addsBeforeRemoves rest

/-- The list of filters a `FilterDict` maps a key to (empty when the
key is absent; the parser never stores an empty list). -/
def valuesFor (k : String) : FilterDict → List Filter
  | [] => []
  | (k', fs) :: rest => if k' = k then fs else valuesFor k rest

/-- Append each key of the second list to `seen` the first time it
appears: `addNewKeys [] ks` is the keys of `ks` in insertion order of
first occurrence. -/
def addNewKeys (seen : List String) : List String → List String
  | [] => seen
  | k :: ks =>
    addNewKeys (if seen.contains k then seen else seen ++ [k]) ks

/-- The key of one filter token. -/
def tokenKey (t : String) : String := (keyValOf t).1

/-! ## The batch runner (`src/main.ts`) -/

/-- The observable outcome of `run`: either the `result` output (the
array produced by `Promise.all`) or a `setFailed` message from the
`catch` block. -/
inductive RunOutcome where
  | output (results : List SyncResult)
  | failed (message : String)
  deriving Repr, DecidableEq

/-- `Promise.all` over the per-configuration promises: if every
configuration resolves, the array of values in input order; otherwise
the rejection reason of the first rejected configuration. -/
def seqResults : List (Except String SyncResult) →
    Except String (List SyncResult)
  | [] => .ok []
  | p :: ps =>
    match p with
    | .error e => .error e
    | .ok r =>
      match seqResults ps with
      | .error e => .error e
      | .ok rs => .ok (r :: rs)

/-- `run` from `src/main.ts`, abstracted over the outcome of each
configuration's `syncCollection` promise (`.ok` a resolved value —
possibly an error object — or `.error` a thrown rejection).  A
rejection escapes `Promise.all`, is caught by the `try/catch`, and
turns into `core.setFailed`, so no `result` output is produced. -/
def run (outcomes : List (Except String SyncResult)) : RunOutcome :=
  match seqResults outcomes with
  | .ok results => .output results
  | .error e => .failed ("Action failed with error: " ++ e)

/-! ## Concrete worlds used as counterexamples -/

/-- A raw search item with document id `i`. -/
def mkItem (i : String) : SearchItem :=
  { document := { id := i, title := "t", url := "u" } }

/-- A world whose search response lists the same document id twice and
whose collection `C` already exists (empty). -/
def wDup : World :=
  { searchResults := [mkItem "d", mkItem "d"]
    creationResponse := { errorCode := some "NAME_EXISTS" }
    collections := [⟨1, "C"⟩]
    collectionItems := fun _ => [] }

/-- A world where creating `C` succeeds (id 7) and the search response
lists ids in non-sorted order `b, a`. -/
def wUnsorted : World :=
  { searchResults := [mkItem "b", mkItem "a"]
    creationResponse := { id := some 7 }
    collections := []
    collectionItems := fun _ => [] }

/-- A world whose existing collection `C` holds the same document id
twice while the search returns nothing. -/
def wDupExisting : World :=
  { searchResults := []
    creationResponse := { errorCode := some "NAME_EXISTS" }
    collections := [⟨1, "C"⟩]
    collectionItems := fun _ => [mkItem "o", mkItem "o"] }

/-- A world where collection `C` exists holding `o` while the search
returns `n`: one addition and one removal. -/
def wBoth : World :=
  { searchResults := [mkItem "n"]
    creationResponse := { errorCode := some "NAME_EXISTS" }
    collections := [⟨1, "C"⟩]
    collectionItems := fun _ => [mkItem "o"] }

/-- A world where creation reports NAME_EXISTS but the listing has no
collection at all. -/
def wMissing : World :=
  { searchResults := [mkItem "d"]
    creationResponse := { errorCode := some "NAME_EXISTS" }
    collections := []
    collectionItems := fun _ => [] }

/-- A world where the search ids and the existing collection's ids
coincide. -/
def wSame : World :=
  { searchResults := [mkItem "s"]
    creationResponse := { errorCode := some "NAME_EXISTS" }
    collections := [⟨1, "C"⟩]
    collectionItems := fun _ => [mkItem "s"] }

/-- A world where creation neither reports NAME_EXISTS nor returns an
id. -/
def wCreateFail : World :=
  { searchResults := [mkItem "d"]
    creationResponse := {}
    collections := []
    collectionItems := fun _ => [] }

/-! ## Helper lemmas -/

theorem mem_diffIds {s e : List String} {x : String} :
    x ∈ diffIds s e ↔ x ∈ s ∧ x ∉ e := by
  simp [diffIds]

theorem insertSorted_perm (x : String) (l : List String) :
    (insertSorted x l).Perm (x :: l) := by
  induction l with
  | nil => exact List.Perm.refl _
  | cons y ys ih =>
    unfold insertSorted
    by_cases h : strLe x y = true
    · rw [if_pos h]
    · rw [if_neg h]
      exact (ih.cons y).trans (List.Perm.swap x y ys)

theorem sortStrings_perm (l : List String) : (sortStrings l).Perm l := by
  induction l with
  | nil => exact List.Perm.nil
  | cons x xs ih =>
    exact (insertSorted_perm x (sortStrings xs)).trans (ih.cons x)

theorem mem_sortStrings {l : List String} {x : String} :
    x ∈ sortStrings l ↔ x ∈ l :=
  (sortStrings_perm l).mem_iff

theorem nodup_sortStrings {l : List String} (h : l.Nodup) :
    (sortStrings l).Nodup :=
  (sortStrings_perm l).nodup_iff.mpr h

theorem syncCollection_existing (w : World) (name : String) (c : Collection)
    (h1 : w.creationResponse.errorCode = some "NAME_EXISTS")
    (h2 : findCollection w.collections name = some c) :
    syncCollection w name =
      (SyncResult.updated c.id name
        (sortStrings (diffIds (searchIds w) (existingIds w c.id)))
        (sortStrings (diffIds (existingIds w c.id) (searchIds w))),
      [ApiCall.search, ApiCall.createcollection name,
        ApiCall.listcollections, ApiCall.getcollection c.id]
        ++ (if (diffIds (searchIds w) (existingIds w c.id)).length ≠ 0 then
              ((getDocumentDetails w.searchResults).filter
                  (fun doc =>
                    (diffIds (searchIds w) (existingIds w c.id)).contains
                      doc.documentId)).map
                (fun doc => ApiCall.addcollectionitems c.id doc)
            else [])
        ++ (if (diffIds (existingIds w c.id) (searchIds w)).length ≠ 0 then
              (diffIds (existingIds w c.id) (searchIds w)).map
                (fun docId =>
                  ApiCall.deletecollectionitem c.id none docId)
            else [])) := by
  simp only [syncCollection, h1, h2, searchIds, existingIds]
  simp

theorem syncCollection_notFound (w : World) (name : String)
    (h1 : w.creationResponse.errorCode = some "NAME_EXISTS")
    (h2 : findCollection w.collections name = none) :
    syncCollection w name =
      (SyncResult.error ("Collection '" ++ name ++ "' not found."),
      [ApiCall.search, ApiCall.createcollection name,
        ApiCall.listcollections]) := by
  simp only [syncCollection, h1, h2, searchIds]
  simp

theorem syncCollection_created (w : World) (name : String) (cid : Nat)
    (h1 : w.creationResponse.errorCode ≠ some "NAME_EXISTS")
    (h2 : w.creationResponse.id = some cid) (h3 : cid ≠ 0) :
    syncCollection w name =
      (SyncResult.created cid name (searchIds w),
      [ApiCall.search, ApiCall.createcollection name]
        ++ (getDocumentDetails w.searchResults).map
          (fun doc => ApiCall.addcollectionitems cid doc)) := by
  simp only [syncCollection, if_neg h1, h2, h3, searchIds]
  simp [h3]

theorem syncCollection_createError (w : World) (name : String)
    (h1 : w.creationResponse.errorCode ≠ some "NAME_EXISTS")
    (h2 : w.creationResponse.id = none ∨ w.creationResponse.id = some 0) :
    syncCollection w name =
      (SyncResult.error "Error creating collection",
      [ApiCall.search, ApiCall.createcollection name]) := by
  rcases h2 with h2 | h2
  all_goals simp [syncCollection, if_neg h1, h2, searchIds]

theorem map_fst_insertFilter (d : FilterDict) (key : String) (f : Filter) :
    (insertFilter d key f).map Prod.fst =
      if (d.map Prod.fst).contains key then d.map Prod.fst
      else d.map Prod.fst ++ [key] := by
  induction d with
  | nil => simp [insertFilter]
  | cons p rest ih =>
    obtain ⟨k, fs⟩ := p
    by_cases hk : k = key
    · subst hk
      simp [insertFilter, List.contains_cons]
    · simp only [insertFilter, if_neg hk, List.map_cons, ih,
        List.contains_cons]
      by_cases hc : key ∈ rest.map Prod.fst
      · simp [hc]
      · simp [hc, Ne.symm hk]

theorem map_fst_foldl_addFilterToken (parts : List String) (d : FilterDict) :
    ((parts.foldl addFilterToken d).map Prod.fst) =
      addNewKeys (d.map Prod.fst) (parts.map tokenKey) := by
  induction parts generalizing d with
  | nil => rfl
  | cons p ps ih =>
    show ((ps.foldl addFilterToken (addFilterToken d p)).map Prod.fst) = _
    rw [ih]
    simp only [List.map_cons, addNewKeys, addFilterToken,
      map_fst_insertFilter, tokenKey]

theorem valuesFor_insertFilter (d : FilterDict) (k key : String)
    (f : Filter) :
    valuesFor k (insertFilter d key f) =
      if key = k then valuesFor k d ++ [f] else valuesFor k d := by
  induction d with
  | nil =>
    by_cases h : key = k
    · simp [insertFilter, valuesFor, h]
    · simp [insertFilter, valuesFor, h]
  | cons p rest ih =>
    obtain ⟨k', fs⟩ := p
    by_cases h1 : k' = key
    · subst h1
      by_cases h2 : k' = k
      · subst h2
        simp [insertFilter, valuesFor]
      · simp [insertFilter, valuesFor, h2]
    · by_cases h2 : k' = k
      · subst h2
        have hkey : key ≠ k' := Ne.symm h1
        simp [insertFilter, valuesFor, h1, hkey]
      · simp [insertFilter, valuesFor, h1, h2, ih]

theorem valuesFor_foldl_addFilterToken (parts : List String)
    (d : FilterDict) (k : String) :
    valuesFor k (parts.foldl addFilterToken d) =
      valuesFor k d ++ parts.filterMap
        (fun t => if tokenKey t = k then some (mkFilter t) else none) := by
  induction parts generalizing d with
  | nil => simp
  | cons p ps ih =>
    show valuesFor k (ps.foldl addFilterToken (addFilterToken d p)) = _
    rw [ih]
    simp only [addFilterToken, valuesFor_insertFilter, tokenKey,
      List.filterMap_cons]
    by_cases h : (keyValOf p).1 = k
    · simp [h]
    · simp [h]

theorem addsBeforeRemoves_append (l1 l2 : List ApiCall)
    (h1 : ∀ c ∈ l1, isRemoveCall c = false)
    (h2 : addsBeforeRemoves l2 = true) :
    addsBeforeRemoves (l1 ++ l2) = true := by
  induction l1 with
  | nil => simpa using h2
  | cons c cs ih =>
    have hc := h1 c (List.mem_cons_self c cs)
    simp only [List.cons_append, addsBeforeRemoves, hc]
    simp only [Bool.false_eq_true, if_false]
    exact ih (fun d hd => h1 d (List.mem_cons_of_mem c hd))

theorem addsBeforeRemoves_of_no_adds (l : List ApiCall)
    (h : ∀ c ∈ l, isAddCall c = false) :
    addsBeforeRemoves l = true := by
  induction l with
  | nil => rfl
  | cons c cs ih =>
    simp only [addsBeforeRemoves]
    by_cases hr : isRemoveCall c = true
    · rw [if_pos hr]
      simp only [noAddCalls, List.all_eq_true]
      intro d hd
      simp [h d (List.mem_cons_of_mem c hd)]
    · rw [if_neg hr]
      exact ih (fun d hd => h d (List.mem_cons_of_mem c hd))

theorem seqResults_all_ok (results : List SyncResult) :
    seqResults (results.map Except.ok) = Except.ok results := by
  induction results with
  | nil => rfl
  | cons r rs ih => simp [seqResults, ih]

theorem seqResults_first_error (pre : List SyncResult) (e : String)
    (post : List (Except String SyncResult)) :
    seqResults (pre.map Except.ok ++ Except.error e :: post) =
      Except.error e := by
  induction pre with
  | nil => rfl
  | cons r rs ih => simp [seqResults, ih]

/-! ## Claim theorems -/

/-- C1: In the existing-collection branch of `syncCollection`, with S the
search-result ids and E the existing-item ids, `newDocumentIds` (toAdd)
equals S minus E and `oldDocumentIds` (toRemove) equals E minus S as
sets; these two sets are disjoint, and toAdd together with E ∩ S
together with toRemove spans exactly S ∪ E. -/
theorem existing_branch_set_difference (w : World) (name : String)
    (c : Collection)
    (h1 : w.creationResponse.errorCode = some "NAME_EXISTS")
    (h2 : findCollection w.collections name = some c) :
    (syncCollection w name).1 =
      SyncResult.updated c.id name
        (sortStrings (diffIds (searchIds w) (existingIds w c.id)))
        (sortStrings (diffIds (existingIds w c.id) (searchIds w))) ∧
    (∀ x, x ∈ diffIds (searchIds w) (existingIds w c.id) ↔
      x ∈ searchIds w ∧ x ∉ existingIds w c.id) ∧
    (∀ x, x ∈ diffIds (existingIds w c.id) (searchIds w) ↔
      x ∈ existingIds w c.id ∧ x ∉ searchIds w) ∧
    (∀ x, ¬(x ∈ diffIds (searchIds w) (existingIds w c.id) ∧
      x ∈ diffIds (existingIds w c.id) (searchIds w))) ∧
    (∀ x, (x ∈ diffIds (searchIds w) (existingIds w c.id) ∨
        (x ∈ existingIds w c.id ∧ x ∈ searchIds w) ∨
        x ∈ diffIds (existingIds w c.id) (searchIds w)) ↔
      (x ∈ searchIds w ∨ x ∈ existingIds w c.id)) := by
  refine ⟨?_, fun x => mem_diffIds, fun x => mem_diffIds, ?_, ?_⟩
  · rw [syncCollection_existing w name c h1 h2]
  · intro x
    rw [mem_diffIds, mem_diffIds]
    tauto
  · intro x
    rw [mem_diffIds, mem_diffIds]
    tauto

/-- Witness for C1 at the concrete world `wDup` and name `C`. -/
theorem existing_branch_set_difference_witness :
    wDup.creationResponse.errorCode = some "NAME_EXISTS" ∧
    findCollection wDup.collections "C" = some ⟨1, "C"⟩ ∧
    (syncCollection wDup "C").1 = SyncResult.updated 1 "C" ["d", "d"] [] :=
  ⟨by decide, by decide, by
    rw [(existing_branch_set_difference wDup "C" ⟨1, "C"⟩ (by decide)
      (by decide)).1]
    decide⟩

/-- C2 counterexample: with the same document id twice in the search
response, the result's added document ids contain a duplicate, and with
the same document id twice among the existing collection's items, the
result's removed document ids contain a duplicate — neither is a set. -/
theorem duplicate_search_ids_not_deduped :
    (syncCollection wDup "C").1 = SyncResult.updated 1 "C" ["d", "d"] [] ∧
    ¬(addedOf (syncCollection wDup "C").1).Nodup ∧
    (syncCollection wDupExisting "C").1 =
      SyncResult.updated 1 "C" [] ["o", "o"] ∧
    ¬(removedOf (syncCollection wDupExisting "C").1).Nodup := by
  refine ⟨by decide, by decide, by decide, by decide⟩

/-- C2 (amended): the added and removed document ids of any
`syncCollection` result are always disjoint; the added ids are
duplicate-free whenever the search-result ids are, and the removed ids
whenever the existing-item ids are — duplicates in either input are not
deduplicated and reappear in the corresponding output list. -/
theorem added_removed_disjoint_nodup (w : World) (name : String) :
    (∀ x, ¬(x ∈ addedOf (syncCollection w name).1 ∧
      x ∈ removedOf (syncCollection w name).1)) ∧
    ((searchIds w).Nodup → (addedOf (syncCollection w name).1).Nodup) ∧
    ((∀ cid, (existingIds w cid).Nodup) →
      (removedOf (syncCollection w name).1).Nodup) := by
  by_cases h1 : w.creationResponse.errorCode = some "NAME_EXISTS"
  · cases h2 : findCollection w.collections name with
    | none =>
      rw [syncCollection_notFound w name h1 h2]
      refine ⟨fun x hx => ?_, fun _ => List.nodup_nil,
        fun _ => List.nodup_nil⟩
      simp [addedOf] at hx
    | some c =>
      rw [syncCollection_existing w name c h1 h2]
      refine ⟨fun x hx => ?_, ?_, ?_⟩
      · rcases hx with ⟨ha, hr⟩
        simp only [addedOf, removedOf, mem_sortStrings, mem_diffIds] at ha hr
        exact hr.2 ha.1
      · exact fun hS => nodup_sortStrings (hS.filter _)
      · exact fun hE => nodup_sortStrings ((hE c.id).filter _)
  · cases h2 : w.creationResponse.id with
    | none =>
      rw [syncCollection_createError w name h1 (Or.inl h2)]
      refine ⟨fun x hx => ?_, fun _ => List.nodup_nil,
        fun _ => List.nodup_nil⟩
      simp [addedOf] at hx
    | some cid =>
      by_cases h3 : cid = 0
      · rw [syncCollection_createError w name h1 (Or.inr (h3 ▸ h2))]
        refine ⟨fun x hx => ?_, fun _ => List.nodup_nil,
          fun _ => List.nodup_nil⟩
        simp [addedOf] at hx
      · rw [syncCollection_created w name cid h1 h2 h3]
        refine ⟨fun x hx => ?_, fun hS => hS, fun _ => List.nodup_nil⟩
        simp [removedOf] at hx

/-- Witness for C2 (amended) at a concrete world with distinct ids:
both duplicate-freeness antecedents are discharged there. -/
theorem added_removed_disjoint_nodup_witness :
    (∀ x, ¬(x ∈ addedOf (syncCollection wUnsorted "C").1 ∧
      x ∈ removedOf (syncCollection wUnsorted "C").1)) ∧
    (addedOf (syncCollection wUnsorted "C").1).Nodup ∧
    (removedOf (syncCollection wUnsorted "C").1).Nodup :=
  ⟨(added_removed_disjoint_nodup wUnsorted "C").1,
    (added_removed_disjoint_nodup wUnsorted "C").2.1 (by decide),
    (added_removed_disjoint_nodup wUnsorted "C").2.2
      (fun _ => List.nodup_nil)⟩

/-- C3 counterexample: on the new-collection path the added document
ids are reported in search-result order, not sorted: with search ids
`["b", "a"]` the result carries `["b", "a"]`, while the sorted rendering
of that id set is `["a", "b"]`. -/
theorem new_collection_added_unsorted :
    (syncCollection wUnsorted "C").1 =
      SyncResult.created 7 "C" ["b", "a"] ∧
    sortStrings (searchIds wUnsorted) = ["a", "b"] ∧
    (syncCollection wUnsorted "C").1 ≠
      SyncResult.created 7 "C" (sortStrings (searchIds wUnsorted)) := by
  refine ⟨by decide, by decide, by decide⟩

/-- C3 (amended): whenever `syncCollection` creates a new collection
(no NAME_EXISTS condition and a non-zero id from creation), the result
carries no removed-documents set and its added document ids are exactly
the search-result ids in search-result order (not sorted). -/
theorem new_collection_added_eq_search_ids (w : World) (name : String)
    (cid : Nat)
    (h1 : w.creationResponse.errorCode ≠ some "NAME_EXISTS")
    (h2 : w.creationResponse.id = some cid) (h3 : cid ≠ 0) :
    (syncCollection w name).1 = SyncResult.created cid name (searchIds w) ∧
    removedOf (syncCollection w name).1 = [] := by
  have h := syncCollection_created w name cid h1 h2 h3
  rw [h]
  exact ⟨rfl, rfl⟩

/-- Witness for C3 (amended) at the concrete world `wUnsorted`. -/
theorem new_collection_added_eq_search_ids_witness :
    (syncCollection wUnsorted "C").1 =
      SyncResult.created 7 "C" (searchIds wUnsorted) ∧
    removedOf (syncCollection wUnsorted "C").1 = [] :=
  new_collection_added_eq_search_ids wUnsorted "C" 7 (by decide) (by decide)
    (by decide)

/-- C4 counterexample: a configuration whose sync promise rejects makes
`Promise.all` reject; the `catch` block turns the whole run into a
`setFailed`, so the sibling configuration's result is not reported at
all — the failure is not captured as that configuration's own error
entry in the output sequence. -/
theorem batch_failure_not_isolated :
    run [Except.error "boom",
        Except.ok (SyncResult.created 1 "C" ["d"])] =
      RunOutcome.failed "Action failed with error: boom" ∧
    run [Except.error "boom",
        Except.ok (SyncResult.created 1 "C" ["d"])] ≠
      RunOutcome.output [SyncResult.error "boom",
        SyncResult.created 1 "C" ["d"]] :=
  ⟨by decide, by decide⟩

/-- C4 (amended): when every configuration's sync promise resolves
(including resolutions to error objects), the output is the sequence of
per-configuration results in input order; but a rejected (thrown)
configuration makes the whole run fail with its rejection reason, and no
per-configuration results are reported. -/
theorem run_output_or_failed :
    (∀ results : List SyncResult,
      run (results.map Except.ok) = RunOutcome.output results) ∧
    (∀ (pre : List SyncResult) (e : String)
        (post : List (Except String SyncResult)),
      run (pre.map Except.ok ++ Except.error e :: post) =
        RunOutcome.failed ("Action failed with error: " ++ e)) := by
  constructor
  · intro results
    simp [run, seqResults_all_ok]
  · intro pre e post
    simp [run, seqResults_first_error]

/-- C5: in the existing-collection branch with non-empty toAdd and
non-empty toRemove, the trace contains add calls and remove calls, and
every add call is issued before any remove call. -/
theorem adds_issued_before_removes (w : World) (name : String)
    (c : Collection)
    (h1 : w.creationResponse.errorCode = some "NAME_EXISTS")
    (h2 : findCollection w.collections name = some c)
    (h3 : diffIds (searchIds w) (existingIds w c.id) ≠ [])
    (h4 : diffIds (existingIds w c.id) (searchIds w) ≠ []) :
    addsBeforeRemoves (syncCollection w name).2 = true ∧
    (∃ call ∈ (syncCollection w name).2, isAddCall call = true) ∧
    (∃ call ∈ (syncCollection w name).2, isRemoveCall call = true) := by
  rw [syncCollection_existing w name c h1 h2]
  rw [if_pos (fun h => h3 (List.length_eq_zero.mp h)),
    if_pos (fun h => h4 (List.length_eq_zero.mp h))]
  refine ⟨?_, ?_, ?_⟩
  · apply addsBeforeRemoves_append
    · intro call hc
      rcases List.mem_append.mp hc with hc | hc
      · simp only [List.mem_cons, List.not_mem_nil, or_false] at hc
        rcases hc with rfl | rfl | rfl | rfl
        all_goals rfl
      · rcases List.mem_map.mp hc with ⟨doc, _, rfl⟩
        rfl
    · exact addsBeforeRemoves_of_no_adds _ (fun call hc => by
        rcases List.mem_map.mp hc with ⟨docId, _, rfl⟩
        rfl)
  · rcases List.exists_mem_of_ne_nil _ h3 with ⟨x, hx⟩
    have hxS : x ∈ searchIds w := (mem_diffIds.mp hx).1
    rcases List.mem_map.mp hxS with ⟨doc, hdoc, rfl⟩
    refine ⟨ApiCall.addcollectionitems c.id doc, ?_, rfl⟩
    refine List.mem_append_left _ (List.mem_append_right _ ?_)
    refine List.mem_map.mpr ⟨doc, ?_, rfl⟩
    refine List.mem_filter.mpr ⟨hdoc, ?_⟩
    simpa using hx
  · rcases List.exists_mem_of_ne_nil _ h4 with ⟨y, hy⟩
    refine ⟨ApiCall.deletecollectionitem c.id none y,
      List.mem_append_right _ (List.mem_map.mpr ⟨y, hy, rfl⟩), rfl⟩

/-- Witness for C5 at the concrete world `wBoth`: one document to add,
one to remove. -/
theorem adds_issued_before_removes_witness :
    addsBeforeRemoves (syncCollection wBoth "C").2 = true ∧
    (∃ call ∈ (syncCollection wBoth "C").2, isAddCall call = true) ∧
    (∃ call ∈ (syncCollection wBoth "C").2, isRemoveCall call = true) :=
  adds_issued_before_removes wBoth "C" ⟨1, "C"⟩ (by decide) (by decide)
    (by decide) (by decide)

/-- C6: when creation reports NAME_EXISTS but the listing holds no
collection with exactly the requested name, the run resolves to an error
value naming the missing collection, and the trace contains no item add
or remove call. -/
theorem name_exists_but_collection_missing (w : World) (name : String)
    (h1 : w.creationResponse.errorCode = some "NAME_EXISTS")
    (h2 : findCollection w.collections name = none) :
    (syncCollection w name).1 =
      SyncResult.error ("Collection '" ++ name ++ "' not found.") ∧
    (syncCollection w name).2 =
      [ApiCall.search, ApiCall.createcollection name,
        ApiCall.listcollections] ∧
    (∀ call ∈ (syncCollection w name).2,
      isAddCall call = false ∧ isRemoveCall call = false) := by
  rw [syncCollection_notFound w name h1 h2]
  refine ⟨rfl, rfl, ?_⟩
  intro call hc
  simp only [List.mem_cons, List.not_mem_nil, or_false] at hc
  rcases hc with rfl | rfl | rfl
  all_goals exact ⟨rfl, rfl⟩

/-- Witness for C6 at the concrete world `wMissing`. -/
theorem name_exists_but_collection_missing_witness :
    (syncCollection wMissing "C").1 =
      SyncResult.error ("Collection '" ++ "C" ++ "' not found.") ∧
    (syncCollection wMissing "C").2 =
      [ApiCall.search, ApiCall.createcollection "C",
        ApiCall.listcollections] ∧
    (∀ call ∈ (syncCollection wMissing "C").2,
      isAddCall call = false ∧ isRemoveCall call = false) :=
  name_exists_but_collection_missing wMissing "C" (by decide) (by decide)

/-- C7: in the existing-collection branch, when the search id set equals
the existing id set, both deltas are empty, the trace contains no add or
remove call but does contain the item listing, and the result is the
Updated outcome with empty added and removed lists. -/
theorem equal_sets_no_op (w : World) (name : String) (c : Collection)
    (h1 : w.creationResponse.errorCode = some "NAME_EXISTS")
    (h2 : findCollection w.collections name = some c)
    (hEq : ∀ x, x ∈ searchIds w ↔ x ∈ existingIds w c.id) :
    diffIds (searchIds w) (existingIds w c.id) = [] ∧
    diffIds (existingIds w c.id) (searchIds w) = [] ∧
    (syncCollection w name).1 = SyncResult.updated c.id name [] [] ∧
    (∀ call ∈ (syncCollection w name).2,
      isAddCall call = false ∧ isRemoveCall call = false) ∧
    ApiCall.getcollection c.id ∈ (syncCollection w name).2 := by
  have hSE : diffIds (searchIds w) (existingIds w c.id) = [] := by
    refine List.filter_eq_nil_iff.mpr (fun a ha => ?_)
    simp [(hEq a).mp ha]
  have hES : diffIds (existingIds w c.id) (searchIds w) = [] := by
    refine List.filter_eq_nil_iff.mpr (fun a ha => ?_)
    simp [(hEq a).mpr ha]
  rw [syncCollection_existing w name c h1 h2, hSE, hES]
  refine ⟨rfl, rfl, rfl, ?_, ?_⟩
  · intro call hc
    simp only [List.length_nil, ne_eq, not_true_eq_false, if_false,
      List.append_nil, List.mem_cons, List.not_mem_nil, or_false] at hc
    rcases hc with rfl | rfl | rfl | rfl
    all_goals exact ⟨rfl, rfl⟩
  · simp

/-- Witness for C7 at the concrete world `wSame`. -/
theorem equal_sets_no_op_witness :
    diffIds (searchIds wSame) (existingIds wSame 1) = [] ∧
    diffIds (existingIds wSame 1) (searchIds wSame) = [] ∧
    (syncCollection wSame "C").1 = SyncResult.updated 1 "C" [] [] ∧
    (∀ call ∈ (syncCollection wSame "C").2,
      isAddCall call = false ∧ isRemoveCall call = false) ∧
    ApiCall.getcollection 1 ∈ (syncCollection wSame "C").2 :=
  equal_sets_no_op wSame "C" ⟨1, "C"⟩ (by decide) (by decide)
    (fun x => Iff.rfl)

/-- C9: when the creation response carries neither the NAME_EXISTS error
code nor a truthy id (the id is absent or 0), the run resolves to the
error value "Error creating collection" and the trace contains no item
add or remove call. -/
theorem creation_failure_no_items (w : World) (name : String)
    (h1 : w.creationResponse.errorCode ≠ some "NAME_EXISTS")
    (h2 : w.creationResponse.id = none ∨ w.creationResponse.id = some 0) :
    (syncCollection w name).1 =
      SyncResult.error "Error creating collection" ∧
    (syncCollection w name).2 =
      [ApiCall.search, ApiCall.createcollection name] ∧
    (∀ call ∈ (syncCollection w name).2,
      isAddCall call = false ∧ isRemoveCall call = false) := by
  rw [syncCollection_createError w name h1 h2]
  refine ⟨rfl, rfl, ?_⟩
  intro call hc
  simp only [List.mem_cons, List.not_mem_nil, or_false] at hc
  rcases hc with rfl | rfl
  all_goals exact ⟨rfl, rfl⟩

/-- Witness for C9 at the concrete world `wCreateFail`. -/
theorem creation_failure_no_items_witness :
    (syncCollection wCreateFail "C").1 =
      SyncResult.error "Error creating collection" ∧
    (syncCollection wCreateFail "C").2 =
      [ApiCall.search, ApiCall.createcollection "C"] ∧
    (∀ call ∈ (syncCollection wCreateFail "C").2,
      isAddCall call = false ∧ isRemoveCall call = false) :=
  creation_failure_no_items wCreateFail "C" (by decide) (Or.inl (by decide))

/-- C8: `parseFilters` yields the empty mapping for the empty string;
otherwise its keys are the tokens' keys in insertion order of first
occurrence, and each key maps to the filters of the tokens bearing that
key in token order — every token's key and value (the colon-split
fields) are preserved. -/
theorem parseFilters_groups_tokens (s k : String) (h : s ≠ "") :
    parseFilters "" = [] ∧
    (parseFilters s).map Prod.fst =
      addNewKeys [] ((jsSplit ' ' s).map tokenKey) ∧
    valuesFor k (parseFilters s) =
      (jsSplit ' ' s).filterMap
        (fun t => if tokenKey t = k then some (mkFilter t) else none) := by
  refine ⟨rfl, ?_, ?_⟩
  · rw [parseFilters, if_neg h, map_fst_foldl_addFilterToken]
    rfl
  · rw [parseFilters, if_neg h, valuesFor_foldl_addFilterToken]
    rfl

/-- Witness for C8 at the filter expression of the spec's example. -/
theorem parseFilters_groups_tokens_witness :
    parseFilters "" = [] ∧
    (parseFilters "a:1 b:2 a:3").map Prod.fst =
      addNewKeys [] ((jsSplit ' ' "a:1 b:2 a:3").map tokenKey) ∧
    valuesFor "a" (parseFilters "a:1 b:2 a:3") =
      (jsSplit ' ' "a:1 b:2 a:3").filterMap
        (fun t => if tokenKey t = "a" then some (mkFilter t) else none) :=
  parseFilters_groups_tokens "a:1 b:2 a:3" "a" (by decide)

/-- C10: for a token splitting on colons into at least three segments,
only the first segment becomes the key and only the second the value;
everything after the second colon is silently dropped, both by the
destructuring and in the parsed dictionary. -/
theorem multi_colon_segments_dropped (t k0 v0 : String)
    (rest : List String)
    (hsplit : jsSplit ':' t = k0 :: v0 :: rest)
    (hTok : jsSplit ' ' t = [t]) :
    keyValOf t = (k0, some v0) ∧
    parseFilters t = [(k0, [⟨some v0, "EQUALS"⟩])] := by
  have hkv : keyValOf t = (k0, some v0) := by
    rw [keyValOf, hsplit]
  have ht : t ≠ "" := by
    intro h
    rw [h] at hsplit
    simp [jsSplit, splitChar] at hsplit
  refine ⟨hkv, ?_⟩
  rw [parseFilters, if_neg ht, hTok]
  simp [addFilterToken, insertFilter, mkFilter, hkv]

/-- Witness for C10 at the token `a:b:c`: the segment `c` is dropped. -/
theorem multi_colon_segments_dropped_witness :
    keyValOf "a:b:c" = ("a", some "b") ∧
    parseFilters "a:b:c" = [("a", [⟨some "b", "EQUALS"⟩])] :=
  multi_colon_segments_dropped "a:b:c" "a" "b" ["c"] (by decide) (by decide)

end GleanSync
